import Mathlib

/-!
# Verification of the jlrs async bridge, persistent task runtime and module lookups

This file gives a shallow embedding of the parts of jlrs that the specification
talks about:

* the future bridge of `src/jlrs/src/async_util/future.rs` (`TaskState`,
  `JuliaFuture::poll`, `wake_task`, the constructors' task-store step);
* the persistent task loop of `src/jlrs/src/async_util/internal.rs`
  (`PendingTaskEnvelope::call` for `PendingTask<PersistentComms<C, P, O>, P, Persistent>`);
* the module lookup operations of `src/jlrs/src/wrappers/ptr/module.rs`
  (`Module::submodule`, `Module::global`, `Module::function`);
* the source-include task of `src/jlrs/src/async_util/internal.rs`
  (`IncludeTask::call_inner` and its envelope).

Engine values, wakers and engine task handles are opaque to the embedded code,
so they are modelled as bare identifiers (`Nat`).  Fallible operations return
`Except`; a Rust `panic!`/`unwrap` is modelled as the `Except.error` case of the
`Panic` type.
-/

namespace Jlrs

/-- Engine-owned values are opaque to the bridge; modelled as identifiers. -/
abbrev JlValue := Nat

/-- Host wakers are opaque to the bridge; modelled as identifiers. -/
abbrev Waker := Nat

/-- Engine task handles (`Task<'frame>`) are opaque; modelled as identifiers. -/
abbrev JTask := Nat

instance instDecidableEqExcept {α β : Type} [DecidableEq α] [DecidableEq β] :
    DecidableEq (Except α β) := fun x y =>
  match x, y with
  | .error a, .error b =>
      if h : a = b then .isTrue (by rw [h])
      else .isFalse (fun hc => h (by injection hc))
  | .error _, .ok _ => .isFalse (fun hc => Except.noConfusion hc)
  | .ok _, .error _ => .isFalse (fun hc => Except.noConfusion hc)
  | .ok a, .ok b =>
      if h : a = b then .isTrue (by rw [h])
      else .isFalse (fun hc => h (by injection hc))

/-- `TaskState` (future.rs, lines 30–35): the data behind the shared mutex.
`completed` is the completion flag, `waker` the waker stored by a pending poll,
`task` the handle of the scheduled engine task. -/
structure TaskState where
  completed : Bool
  waker : Option Waker
  task : Option JTask
deriving DecidableEq, Repr

/-- `Arc<Mutex<TaskState>>`: the mutex is modelled as its payload together with
a `poisoned` flag, which is what `lock()` reports as `Err`. -/
structure SharedTaskState where
  poisoned : Bool
  state : TaskState
deriving DecidableEq, Repr

/-- Process aborts the bridge can perform: `panic!("Lock poisoned")` /
`lock().unwrap()` on a poisoned mutex, and the `unreachable!()` arm of `poll`
taken when a completed state carries no task. -/
inductive Panic where
  | lockPoisoned
  | taskMissing
deriving DecidableEq, Repr

/-- The engine primitive used by `JuliaFuture::poll`: `fetch t` is the pair of
the raw result of `jl_call1(fetch, t)` and of `jl_exception_occurred()`
(`none` when no exception is pending after the call). -/
structure Engine where
  fetch : JTask → JlValue × Option JlValue

/-- `Poll<JuliaResult>`: either resolved with the task's (value | exception)
outcome, or pending. -/
inductive PollResult where
  | ready (r : Except JlValue JlValue)
  | pending
deriving DecidableEq, Repr

/-- The (value | exception) outcome produced in the completed arm of `poll`:
`Ok` of the fetched result when no engine exception is pending, `Err` of the
exception value otherwise (future.rs, lines 538–551). -/
def fetchOutcome (eng : Engine) (t : JTask) : Except JlValue JlValue :=
  match (eng.fetch t).2 with
  | none => .ok (eng.fetch t).1
  | some exc => .error exc

/-- `JuliaFuture::poll` (future.rs, lines 525–563).  Locks the shared state
(`unwrap` panics when poisoned).  If completed: with a task present, fetches the
finished task's result and resolves with the disjoint (value | exception)
outcome; with no task, hits `unreachable!()`.  If incomplete: stores the
caller's waker when none is stored, and reports pending. -/
def JuliaFuture.poll (eng : Engine) (m : SharedTaskState) (cxWaker : Waker) :
    Except Panic (PollResult × SharedTaskState) :=
  if m.poisoned then
    .error .lockPoisoned
  else if m.state.completed then
    match m.state.task with
    | some task =>
        match (eng.fetch task).2 with
        | none => .ok (.ready (.ok (eng.fetch task).1), m)
        | some exc => .ok (.ready (.error exc), m)
    | none => .error .taskMissing
  else if m.state.waker.isNone then
    .ok (.pending, { m with state := { m.state with waker := some cxWaker } })
  else
    .ok (.pending, m)

/-- `wake_task` (future.rs, lines 568–578), the completion callback invoked by
the engine.  On a healthy lock it sets `completed`, takes the stored waker and
wakes it; the returned flag records whether a waker was woken.  On a poisoned
lock the `Err(_) => ()` arm does nothing and the function returns normally. -/
def wake_task (m : SharedTaskState) : Except Panic (SharedTaskState × Bool) :=
  if m.poisoned then
    .ok (m, false)
  else
    .ok ({ m with state := { m.state with completed := true, waker := none } },
      m.state.waker.isSome)

/-- The final lock-protected step shared by every `JuliaFuture` constructor
(future.rs, e.g. lines 81–87): store the scheduled task handle in the shared
state, panicking when the lock is poisoned. -/
def JuliaFuture.storeTask (m : SharedTaskState) (t : JTask) :
    Except Panic SharedTaskState :=
  if m.poisoned then
    .error .lockPoisoned
  else
    .ok { m with state := { m.state with task := some t } }

/-! ## Interleaving model for one future's shared state

`JuliaFuture::new` (future.rs, lines 41–90) creates the shared state, passes a
raw pointer to it into the engine's `asynccall` (so the completion callback can
fire from that point on), then locks the state and stores the task handle, and
only then returns the future.  `wake_task` runs on an engine worker thread any
time after the schedule; `poll` requires the returned future, so it can only
run after the task store.  Events are modelled at mutex-acquisition
granularity. -/

/-- One mutex-protected step on a future's shared state: the `asynccall`
schedule (hands the state pointer to the engine), the constructor's task
store, the completion callback, and a poll with a given waker. -/
inductive FEvent where
  | scheduleCall
  | storeTaskEv (t : JTask)
  | completeEv
  | pollEv (w : Waker)
deriving DecidableEq, Repr

/-- `true` exactly on `storeTaskEv` events. -/
def isStoreEv : FEvent → Bool
  | .storeTaskEv _ => true
  | _ => false

/-- Control state tracking which once-only events have happened. -/
structure TraceCtl where
  scheduled : Bool
  stored : Bool
  completedOnce : Bool
deriving DecidableEq, Repr

/-- Which events the code permits next: the constructor schedules before it
stores the task and does each exactly once; the callback needs the state
pointer, which the engine only has after the schedule, and is invoked once;
a poll needs the future, which exists only after the constructor's store. -/
def allowedEv (c : TraceCtl) : FEvent → Bool
  | .scheduleCall => !c.scheduled && !c.stored
  | .storeTaskEv _ => c.scheduled && !c.stored
  | .completeEv => c.scheduled && !c.completedOnce
  | .pollEv _ => c.stored

/-- Control-state update for one event. -/
def ctlStep (c : TraceCtl) : FEvent → TraceCtl
  | .scheduleCall => { c with scheduled := true }
  | .storeTaskEv _ => { c with stored := true }
  | .completeEv => { c with completedOnce := true }
  | .pollEv _ => c

/-- A trace is valid from control state `c` when every event is permitted at
its position. -/
def validFrom (c : TraceCtl) : List FEvent → Bool
  | [] => true
  | e :: tr => allowedEv c e && validFrom (ctlStep c e) tr

/-- A valid interleaving of the constructor, the completion callback and the
polls on one future. -/
def validTrace (tr : List FEvent) : Bool :=
  validFrom ⟨false, false, false⟩ tr

/-- Effect of one event on the shared `TaskState`: the store sets `task`, the
callback sets `completed` and takes the waker, a poll stores its waker when
the state is incomplete and no waker is stored (mirroring
`JuliaFuture.poll`); no event ever clears `task`. -/
def stEvStep (s : TaskState) : FEvent → TaskState
  | .scheduleCall => s
  | .storeTaskEv t => { s with task := some t }
  | .completeEv => { s with completed := true, waker := none }
  | .pollEv w =>
      if s.completed then s
      else if s.waker.isNone then { s with waker := some w }
      else s

/-- The shared state reached after a trace, starting from the freshly created
state `{completed := false, waker := none, task := none}`. -/
def stateAfter (tr : List FEvent) : TaskState :=
  tr.foldl stEvStep ⟨false, none, none⟩

/-! ## Persistent task runtime (internal.rs, lines 328–365) -/

/-- Modelled from the spec: the Stack/Frame types of `crate::memory` (stack
size, `GcFrameOwner::reconstruct`) are not part of the sources, so frames are
identified by the stack size (root count) at their base, per §4.1 of the
spec.  A user persistent task is `CHANNEL_CAPACITY` plus the three user
functions: `init` runs on the base frame and returns the state together with
the stack size it leaves behind, `run` is given the base offset of its
(reconstructed) frame, the retained state and one input and returns the
per-call result, the updated state and the stack size it leaves behind, and
`exit` is given the offset and the final state. -/
structure PersistentTask (S I O E : Type) where
  channelCapacity : Nat
  init : Nat → Except E (S × Nat)
  run : Nat → S → I → Except E O × S × Nat
  exit : Nat → S → S

/-- Observable events of one persistent task instance: the `init` call, a
message received from the request channel, a `run` call at a given frame
offset, the response sent on that message's one-shot channel, the channel
reporting closed, and the `exit` call at a given frame offset. -/
inductive PEvent (I O E : Type) where
  | ranInit
  | recvMsg (input : I)
  | ranRun (offset : Nat) (input : I)
  | responded (r : Except E O)
  | channelClosed
  | ranExit (offset : Nat)
deriving DecidableEq, Repr

/-- `true` exactly on `ranInit` events. -/
def isRanInit {I O E : Type} : PEvent I O E → Bool
  | .ranInit => true
  | _ => false

/-- What one persistent task instance did: the value sent on the requester's
one-shot channel (`Ok ()` standing for the published `PersistentHandle`), the
event trace, and the state left by `exit` (when the Running state was
entered). -/
structure PersistentOutcome (S I O E : Type) where
  handleSent : Except E Unit
  trace : List (PEvent I O E)
  finalState : Option S
deriving Repr

/-- The Running-state loop of the persistent envelope (internal.rs, lines
344–354): for each delivered message, reconstruct the frame at the base
offset saved when the loop started (the stack growth a prior `run` left
behind is discarded — `run` is always given `offset`, not the size its
predecessor returned), run the user `run` with the retained state and the
message's input, and send the result on the message's one-shot channel; when
the channel is closed, stop. -/
def runLoop {S I O E : Type} (p : PersistentTask S I O E) (offset : Nat) :
    S → List I → List (PEvent I O E) × S
  | s, [] => ([PEvent.channelClosed], s)
  | s, i :: rest =>
      let step := p.run offset s i
      let next := runLoop p offset step.2.1 rest
      (PEvent.recvMsg i :: PEvent.ranRun offset i :: PEvent.responded step.1 ::
        next.1, next.2)

/-- `PendingTaskEnvelope::call` for
`PendingTask<PersistentComms<C, P, O>, P, Persistent>` (internal.rs, lines
328–365): run `init` on the base frame; on success send `Ok` (the handle) on
the requester's one-shot channel, save `stack.size()` as the loop's base
offset, serve the delivered messages, then reconstruct at the offset and run
`exit` with the final state; on failure send the error on that same channel
and stop. -/
def PendingTask.call {S I O E : Type} (p : PersistentTask S I O E) (base : Nat)
    (msgs : List I) : PersistentOutcome S I O E :=
  match p.init base with
  | .error e =>
      { handleSent := .error e, trace := [PEvent.ranInit], finalState := none }
  | .ok (s0, sizeAfterInit) =>
      let looped := runLoop p sizeAfterInit s0 msgs
      { handleSent := .ok ()
        trace := PEvent.ranInit :: looped.1 ++ [PEvent.ranExit sizeAfterInit]
        finalState := some (p.exit sizeAfterInit looped.2) }

/-- Per-message serve blocks as §4.3 of the spec describes the Running state:
receive, run at the saved base offset with the threaded state, respond. -/
def serveTrace {S I O E : Type} (p : PersistentTask S I O E) (offset : Nat) :
    S → List I → List (PEvent I O E)
  | _, [] => []
  | s, i :: rest =>
      let step := p.run offset s i
      PEvent.recvMsg i :: PEvent.ranRun offset i :: PEvent.responded step.1 ::
        serveTrace p offset step.2.1 rest

/-- The state obtained by threading the retained state through `run` for each
message in order. -/
def threadState {S I O E : Type} (p : PersistentTask S I O E) (offset : Nat) :
    S → List I → S
  | s, [] => s
  | s, i :: rest => threadState p offset (p.run offset s i).2.1 rest

/-- The responses sent on the messages' one-shot channels, in message order. -/
def responsesOf {S I O E : Type} (p : PersistentTask S I O E) (offset : Nat) :
    S → List I → List (Except E O)
  | _, [] => []
  | s, i :: rest =>
      (p.run offset s i).1 :: responsesOf p offset (p.run offset s i).2.1 rest

/-- Sequential blocks pairing each request with its response: the request is
received, served at `offset`, and answered before the next one is taken. -/
def blocks {I O E : Type} (offset : Nat) :
    List (I × Except E O) → List (PEvent I O E)
  | [] => []
  | (i, r) :: rest =>
      PEvent.recvMsg i :: PEvent.ranRun offset i :: PEvent.responded r ::
        blocks offset rest

/-! ## Module lookups (module.rs) and the include task (internal.rs) -/

/-- The `JlrsError` cases produced by the embedded operations:
`AccessError::GlobalNotFound {name, module}`, `TypeError::NotAModule {name, ty}`,
`TypeError::NotAFunction {name, ty}`, and `JlrsError::exception` wrapping the
value thrown by `include`. -/
inductive JlrsError where
  | globalNotFound (name modName : String)
  | notAModule (name ty : String)
  | notAFunction (name ty : String)
  | includeException (exc : JlValue)
deriving DecidableEq, Repr

/-- The engine state the module operations consult: `getGlobal mod name` is
`jl_get_global` (`none` for a null result), `isModule v` is
`v.is::<Module>()`, `isFunction v` is `v.is::<Function>()` (subtype of
`Function`), and `datatypeName v` the name of `v`'s datatype used in the
error payloads.  Modules are identified by their name. -/
structure GlobalEnv where
  getGlobal : String → String → Option JlValue
  isModule : JlValue → Bool
  isFunction : JlValue → Bool
  datatypeName : JlValue → String

/-- `Module::submodule` (module.rs, lines 126–154): `jl_get_global`; null
result yields `GlobalNotFound`, a non-module binding yields `NotAModule`,
otherwise the (non-null) binding is returned. -/
def Module.submodule (env : GlobalEnv) (m name : String) :
    Except JlrsError JlValue :=
  match env.getGlobal m name with
  | none => .error (.globalNotFound name m)
  | some v =>
      if env.isModule v then .ok v
      else .error (.notAModule name (env.datatypeName v))

/-- `Module::global` (module.rs, lines 286–310): `jl_get_global`; null result
yields `GlobalNotFound`, otherwise the (non-null) binding is returned. -/
def Module.global (env : GlobalEnv) (m name : String) :
    Except JlrsError JlValue :=
  match env.getGlobal m name with
  | none => .error (.globalNotFound name m)
  | some v => .ok v

/-- `Module::function` (module.rs, lines 337–359): looks the name up with
`Module::global` (propagating its error), then rejects bindings that are not
a subtype of `Function` with `NotAFunction`. -/
def Module.function (env : GlobalEnv) (m name : String) :
    Except JlrsError JlValue :=
  match Module.global env m name with
  | .error e => .error e
  | .ok v =>
      if env.isFunction v then .ok v
      else .error (.notAFunction name (env.datatypeName v))

/-- A filesystem path as the include task sees it: `toStr` is
`PathBuf::to_str()`, `none` when the path has no UTF-8 representation. -/
structure PathBuf where
  toStr : Option String

/-- The engine primitive used by the include task:
`Module::main().function("include").call1(path)`, returning the thrown value
on error. -/
structure IncludeEngine where
  includeFile : String → Except JlValue Unit

/-- What the include task did: the result sent to the task's one-shot sender
and the list of `include` invocations performed on the engine. -/
structure IncludeOutcome where
  sent : Except JlrsError Unit
  engineCalls : List String
deriving DecidableEq, Repr

/-- `IncludeTask::call_inner` (internal.rs, lines 434–450): when the path has
a UTF-8 representation, call the engine's `include` with it, wrapping a
thrown value in `JlrsError::exception`; when it has none, do nothing and
return `Ok(())`. -/
def IncludeTask.call_inner (eng : IncludeEngine) (path : PathBuf) :
    Except JlrsError Unit × List String :=
  match path.toStr with
  | some s =>
      match eng.includeFile s with
      | .ok _ => (.ok (), [s])
      | .error e => (.error (.includeException e), [s])
  | none => (.ok (), [])

/-- `IncludeTaskEnvelope::call` for `IncludeTask<O>` (internal.rs, lines
465–482): run `call_inner` on a base frame and send its result to the
one-shot sender. -/
def IncludeTask.call (eng : IncludeEngine) (path : PathBuf) : IncludeOutcome :=
  let inner := IncludeTask.call_inner eng path
  { sent := inner.1, engineCalls := inner.2 }

/-! ## Theorems about the future bridge -/

/-- Helper: in the completed arm with a task present, `poll` resolves with the
fetch outcome and leaves the shared state untouched. -/
lemma poll_completed_eq (eng : Engine) (m : SharedTaskState) (w : Waker)
    (t : JTask) (hp : m.poisoned = false) (hc : m.state.completed = true)
    (ht : m.state.task = some t) :
    JuliaFuture.poll eng m w = .ok (.ready (fetchOutcome eng t), m) := by
  unfold JuliaFuture.poll fetchOutcome
  rw [hp, hc, ht]
  cases hfetch : (eng.fetch t).2 <;> simp [hfetch]

/-- C1: when a `JuliaFuture` is polled while its shared task state is
completed (with its task handle present and a healthy lock), `poll` fetches
the finished task's result via the engine's fetch primitive and resolves with
a disjoint outcome: `Ready(Ok v)` exactly when no engine exception occurred
(`v` the fetched value), and `Ready(Err e)` exactly when one did (`e` the
exception value). -/
theorem poll_completed_fetches_disjoint (eng : Engine) (m : SharedTaskState)
    (w : Waker) (t : JTask) (hp : m.poisoned = false)
    (hc : m.state.completed = true) (ht : m.state.task = some t) :
    JuliaFuture.poll eng m w = .ok (.ready (fetchOutcome eng t), m) ∧
    (∀ v, fetchOutcome eng t = .ok v ↔
      (eng.fetch t).2 = none ∧ (eng.fetch t).1 = v) ∧
    (∀ e, fetchOutcome eng t = .error e ↔ (eng.fetch t).2 = some e) := by
  refine ⟨poll_completed_eq eng m w t hp hc ht, ?_, ?_⟩ <;>
    · intro x
      unfold fetchOutcome
      cases hfetch : (eng.fetch t).2 <;> simp [hfetch, eq_comm]

/-- An engine whose tasks all fetch the value `42` with no exception. -/
def engOkW : Engine := ⟨fun _ => (42, none)⟩

/-- An engine whose tasks all raise the exception value `9`. -/
def engExcW : Engine := ⟨fun _ => (0, some 9)⟩

/-- A completed shared state carrying task handle `5`. -/
def mCompletedW : SharedTaskState := ⟨false, ⟨true, none, some 5⟩⟩

/-- Witness for C1 at concrete inputs: the one-shot task returning `42`
resolves `Ok 42`, the one raising exception `9` resolves `Err 9`. -/
theorem poll_completed_fetches_disjoint_witness :
    JuliaFuture.poll engOkW mCompletedW 0 = .ok (.ready (.ok 42), mCompletedW) ∧
    JuliaFuture.poll engExcW mCompletedW 0 =
      .ok (.ready (.error 9), mCompletedW) := by
  refine ⟨?_, ?_⟩
  · have h := (poll_completed_fetches_disjoint engOkW mCompletedW 0 5
      rfl rfl rfl).1
    simpa [fetchOutcome, engOkW] using h
  · have h := (poll_completed_fetches_disjoint engExcW mCompletedW 0 5
      rfl rfl rfl).1
    simpa [fetchOutcome, engExcW] using h

/-- C4: a poll that observes an already-completed shared state (task handle
present, healthy lock) resolves on that very poll — it returns `Ready` and
hands back the shared state unchanged, so it neither registers nor modifies
the stored waker. -/
theorem poll_completed_resolves_first_poll (eng : Engine)
    (m : SharedTaskState) (w : Waker) (t : JTask) (hp : m.poisoned = false)
    (hc : m.state.completed = true) (ht : m.state.task = some t) :
    ∃ r, JuliaFuture.poll eng m w = .ok (.ready r, m) :=
  ⟨fetchOutcome eng t, poll_completed_eq eng m w t hp hc ht⟩

/-- Witness for C4: a first poll on a concrete completed state resolves. -/
theorem poll_completed_resolves_first_poll_witness :
    ∃ r, JuliaFuture.poll engOkW mCompletedW 7 = .ok (.ready r, mCompletedW) :=
  poll_completed_resolves_first_poll engOkW mCompletedW 7 5 rfl rfl rfl

/-- An engine whose tasks all fetch `0` with no exception. -/
def engZeroW : Engine := ⟨fun _ => (0, none)⟩

/-- An incomplete shared state that already stores waker `0`. -/
def mPendingWakerW : SharedTaskState := ⟨false, ⟨false, some 0, none⟩⟩

/-- Counterexample to C5: polling an incomplete state that already stores
waker `0` with the new waker `1` returns `Pending` but leaves the state
unchanged — the waker supplied by the current poll is *not* stored. -/
theorem poll_incomplete_keeps_stored_waker_cex :
    mPendingWakerW.state.completed = false ∧
    JuliaFuture.poll engZeroW mPendingWakerW 1 = .ok (.pending, mPendingWakerW) ∧
    mPendingWakerW.state.waker ≠ some 1 := by decide

/-- C5 amended: whenever `poll` observes an incomplete shared state (healthy
lock), it returns `Pending`; it stores the waker supplied by the current poll
only when no waker is stored, and otherwise leaves the previously stored
waker in place. -/
theorem poll_incomplete_pending (eng : Engine) (m : SharedTaskState)
    (w : Waker) (hp : m.poisoned = false) (hc : m.state.completed = false) :
    (m.state.waker = none →
      JuliaFuture.poll eng m w =
        .ok (.pending, { m with state := { m.state with waker := some w } })) ∧
    (∀ w0, m.state.waker = some w0 →
      JuliaFuture.poll eng m w = .ok (.pending, m)) := by
  constructor
  · intro hw
    simp [JuliaFuture.poll, hp, hc, hw]
  · intro w0 hw
    simp [JuliaFuture.poll, hp, hc, hw]

/-- An incomplete shared state with no waker stored. -/
def mNoWakerW : SharedTaskState := ⟨false, ⟨false, none, none⟩⟩

/-- Witness for the amended C5 at concrete inputs: with no stored waker the
polled waker `1` is stored; with waker `0` stored the state is unchanged. -/
theorem poll_incomplete_pending_witness :
    JuliaFuture.poll engZeroW mNoWakerW 1 =
      .ok (.pending, ⟨false, ⟨false, some 1, none⟩⟩) ∧
    JuliaFuture.poll engZeroW mPendingWakerW 1 =
      .ok (.pending, mPendingWakerW) := by
  have h1 := poll_incomplete_pending engZeroW mNoWakerW 1 rfl rfl
  have h2 := poll_incomplete_pending engZeroW mPendingWakerW 1 rfl rfl
  exact ⟨h1.1 rfl, h2.2 0 rfl⟩

/-- A poisoned shared-state lock. -/
def mPoisonedW : SharedTaskState := ⟨true, ⟨false, none, none⟩⟩

/-- Counterexample to C7: the completion callback `wake_task` does *not*
abort on a poisoned lock — its `Err(_) => ()` arm returns normally, leaving
the state untouched and waking nothing. -/
theorem wake_task_poisoned_no_panic_cex :
    mPoisonedW.poisoned = true ∧
    wake_task mPoisonedW = .ok (mPoisonedW, false) := by decide

/-- C7 amended: observing a poisoned shared-state lock panics in
`JuliaFuture::poll` and in the constructors' task-store step, but the
completion callback `wake_task` returns normally without any effect (it
neither sets `completed` nor wakes a waker). -/
theorem poisoned_lock_behavior (m : SharedTaskState) (hp : m.poisoned = true) :
    (∀ eng w, JuliaFuture.poll eng m w = .error .lockPoisoned) ∧
    (∀ t, JuliaFuture.storeTask m t = .error .lockPoisoned) ∧
    wake_task m = .ok (m, false) := by
  refine ⟨fun eng w => ?_, fun t => ?_, ?_⟩ <;>
    simp [JuliaFuture.poll, JuliaFuture.storeTask, wake_task, hp]

/-- Witness for the amended C7 at a concrete poisoned state. -/
theorem poisoned_lock_behavior_witness :
    JuliaFuture.poll engZeroW mPoisonedW 0 = .error .lockPoisoned ∧
    JuliaFuture.storeTask mPoisonedW 3 = .error .lockPoisoned ∧
    wake_task mPoisonedW = .ok (mPoisonedW, false) := by
  have h := poisoned_lock_behavior mPoisonedW rfl
  exact ⟨h.1 engZeroW 0, h.2.1 3, h.2.2⟩

/-! ## Theorems about the shared-state interleaving model (C6) -/

/-- Helper: a poll event never changes the `task` field. -/
lemma stEvStep_poll_task (s : TaskState) (w : Waker) :
    (stEvStep s (.pollEv w)).task = s.task := by
  simp only [stEvStep]
  split_ifs <;> rfl

/-- Helper: one step preserves the correspondence between the control flag
`stored` and the presence of a task in the shared state. -/
lemma ctl_state_inv_step (c : TraceCtl) (s : TaskState) (e : FEvent)
    (h : c.stored = s.task.isSome) :
    (ctlStep c e).stored = (stEvStep s e).task.isSome := by
  cases e with
  | scheduleCall => simpa [ctlStep, stEvStep] using h
  | storeTaskEv t => simp [ctlStep, stEvStep]
  | completeEv => simpa [ctlStep, stEvStep] using h
  | pollEv w => simpa [ctlStep, stEvStep_poll_task] using h

/-- Helper: the `stored`/`task.isSome` correspondence holds along any fold. -/
lemma ctl_state_inv_foldl : ∀ (l : List FEvent) (c : TraceCtl) (s : TaskState),
    c.stored = s.task.isSome →
    (l.foldl ctlStep c).stored = (l.foldl stEvStep s).task.isSome := by
  intro l
  induction l with
  | nil => intro c s h; simpa using h
  | cons e l ih =>
      intro c s h
      simp only [List.foldl_cons]
      exact ih _ _ (ctl_state_inv_step c s e h)

/-- Helper: a valid trace holds at most one task store beyond what the
control state already accounts for. -/
lemma validFrom_store_count : ∀ (tr : List FEvent) (c : TraceCtl),
    validFrom c tr = true →
    tr.countP isStoreEv ≤ if c.stored then 0 else 1 := by
  intro tr
  induction tr with
  | nil =>
      intro c _
      rw [List.countP_nil]
      exact Nat.zero_le _
  | cons e tr ih =>
      intro c h
      simp only [validFrom, Bool.and_eq_true] at h
      obtain ⟨h1, h2⟩ := h
      have ihc := ih (ctlStep c e) h2
      cases e with
      | scheduleCall =>
          rw [List.countP_cons]
          have h0 : (if isStoreEv FEvent.scheduleCall = true then 1 else 0) = 0 := rfl
          rw [h0, Nat.add_zero]
          exact ihc
      | storeTaskEv t =>
          have hcs : c.stored = false := by
            cases hx : c.stored
            · rfl
            · simp [allowedEv, hx] at h1
          have ihc' : tr.countP isStoreEv ≤ 0 := ihc
          rw [List.countP_cons]
          have h0 : (if isStoreEv (FEvent.storeTaskEv t) = true then 1 else 0) = 1 := rfl
          rw [h0, hcs]
          have hone : (if (false = true) then 0 else 1) = 1 := rfl
          rw [hone]
          omega
      | completeEv =>
          rw [List.countP_cons]
          have h0 : (if isStoreEv FEvent.completeEv = true then 1 else 0) = 0 := rfl
          rw [h0, Nat.add_zero]
          exact ihc
      | pollEv w =>
          rw [List.countP_cons]
          have h0 : (if isStoreEv (FEvent.pollEv w) = true then 1 else 0) = 0 := rfl
          rw [h0, Nat.add_zero]
          exact ihc

/-- Helper: once the constructor has stored the task, no valid continuation
ever changes the `task` field again. -/
lemma validFrom_task_preserved : ∀ (tr : List FEvent) (c : TraceCtl)
    (s : TaskState) (t : JTask), validFrom c tr = true → c.stored = true →
    s.task = some t → (tr.foldl stEvStep s).task = some t := by
  intro tr
  induction tr with
  | nil =>
      intro c s t _ _ hs
      simpa using hs
  | cons e tr ih =>
      intro c s t h hc hs
      simp only [validFrom, Bool.and_eq_true] at h
      obtain ⟨h1, h2⟩ := h
      cases e with
      | scheduleCall => simp [allowedEv, hc] at h1
      | storeTaskEv t2 => simp [allowedEv, hc] at h1
      | completeEv =>
          simp only [List.foldl_cons]
          exact ih (ctlStep c .completeEv) _ t h2 (by simpa [ctlStep] using hc)
            (by simpa [stEvStep] using hs)
      | pollEv w =>
          simp only [List.foldl_cons]
          exact ih (ctlStep c (.pollEv w)) _ t h2 (by simpa [ctlStep] using hc)
            (by rw [stEvStep_poll_task]; exact hs)

/-- Helper: every poll event in a valid trace observes a state whose `task`
field is set, because polls are only permitted once the constructor has
stored the task. -/
lemma validFrom_poll_sees_task : ∀ (tr : List FEvent) (c : TraceCtl)
    (s : TaskState), validFrom c tr = true → c.stored = s.task.isSome →
    ∀ n w, tr.get? n = some (.pollEv w) →
    ((tr.take n).foldl stEvStep s).task.isSome = true := by
  intro tr
  induction tr with
  | nil =>
      intro c s _ _ n w hn
      simp at hn
  | cons e tr ih =>
      intro c s h hinv n w hn
      simp only [validFrom, Bool.and_eq_true] at h
      obtain ⟨h1, h2⟩ := h
      cases n with
      | zero =>
          rw [List.get?_cons_zero] at hn
          have he : e = .pollEv w := by injection hn
          subst he
          simp only [List.take_zero, List.foldl_nil]
          have hstored : c.stored = true := by simpa [allowedEv] using h1
          rw [← hinv]
          exact hstored
      | succ n =>
          rw [List.get?_cons_succ] at hn
          simp only [List.take_succ_cons, List.foldl_cons]
          exact ih (ctlStep c e) (stEvStep s e) h2
            (ctl_state_inv_step c s e hinv) n w hn

/-- Helper: trace validity splits over concatenation. -/
lemma validFrom_append : ∀ (l1 l2 : List FEvent) (c : TraceCtl),
    validFrom c (l1 ++ l2) =
      (validFrom c l1 && validFrom (l1.foldl ctlStep c) l2) := by
  intro l1
  induction l1 with
  | nil =>
      intro l2 c
      simp [validFrom]
  | cons e l1 ih =>
      intro l2 c
      simp only [List.cons_append, validFrom, List.foldl_cons, List.append_eq,
        ih, Bool.and_assoc]

/-- A trace the code can produce: the engine finishes the scheduled task (and
its callback runs) before the constructor's final task store. -/
def futTraceCex : List FEvent :=
  [.scheduleCall, .completeEv, .storeTaskEv 7, .pollEv 0]

/-- Counterexample to C6: a valid interleaving in which `completed` becomes
true while `task` is still `none` — the task field is *not* set strictly
before the completed flag can become true. -/
theorem task_store_after_completion_cex :
    validTrace futTraceCex = true ∧
    futTraceCex.take 2 = [FEvent.scheduleCall, FEvent.completeEv] ∧
    (stateAfter (futTraceCex.take 2)).completed = true ∧
    (stateAfter (futTraceCex.take 2)).task = none := by decide

/-- C6 amended: in every valid interleaving of one future's constructor,
completion callback and polls, the `task` field is set at most once and never
cleared or changed once set, and every poll — in particular every poll that
observes `completed` — finds the task present, so the no-task branch of
`poll` is unreachable.  (The `completed` flag itself may become true before
the task is stored, as the counterexample shows.) -/
theorem shared_task_state_invariant (tr : List FEvent)
    (h : validTrace tr = true) :
    tr.countP isStoreEv ≤ 1 ∧
    (∀ n t, (stateAfter (tr.take n)).task = some t →
      (stateAfter tr).task = some t) ∧
    (∀ n w, tr.get? n = some (.pollEv w) →
      (stateAfter (tr.take n)).task.isSome = true) := by
  refine ⟨?_, ?_, ?_⟩
  · have hb := validFrom_store_count tr ⟨false, false, false⟩ h
    simpa using hb
  · intro n t hpref
    have hsplit := List.take_append_drop n tr
    have hv : validFrom ⟨false, false, false⟩ (tr.take n ++ tr.drop n) = true := by
      rw [hsplit]
      exact h
    rw [validFrom_append, Bool.and_eq_true] at hv
    obtain ⟨hv1, hv2⟩ := hv
    have hstored :
        ((tr.take n).foldl ctlStep ⟨false, false, false⟩).stored = true := by
      rw [ctl_state_inv_foldl (tr.take n) ⟨false, false, false⟩
        ⟨false, none, none⟩ rfl]
      show (stateAfter (tr.take n)).task.isSome = true
      rw [hpref]
      rfl
    have hkeep := validFrom_task_preserved (tr.drop n) _ _ t hv2 hstored hpref
    have hfold : stateAfter tr =
        (tr.drop n).foldl stEvStep (stateAfter (tr.take n)) := by
      unfold stateAfter
      conv_lhs => rw [← hsplit]
      rw [List.foldl_append]
    rw [hfold]
    exact hkeep
  · intro n w hn
    exact validFrom_poll_sees_task tr ⟨false, false, false⟩ ⟨false, none, none⟩
      h rfl n w hn

/-- A valid trace in which the constructor finishes before completion. -/
def futTraceW : List FEvent :=
  [.scheduleCall, .storeTaskEv 3, .completeEv, .pollEv 0]

/-- Witness for the amended C6 at a concrete valid trace: at most one store,
and the poll (at index 3) sees the task present. -/
theorem shared_task_state_invariant_witness :
    futTraceW.countP isStoreEv ≤ 1 ∧
    (stateAfter (futTraceW.take 3)).task.isSome = true := by
  have h := shared_task_state_invariant futTraceW (by decide)
  exact ⟨h.1, h.2.2 3 0 (by decide)⟩

/-! ## Theorems about the persistent task runtime -/

/-- Helper: the Running loop produces the per-message serve blocks followed by
the channel-closed event, and threads the state through `run` in order. -/
lemma runLoop_eq {S I O E : Type} (p : PersistentTask S I O E) (offset : Nat) :
    ∀ (s : S) (msgs : List I),
      runLoop p offset s msgs =
        (serveTrace p offset s msgs ++ [PEvent.channelClosed],
          threadState p offset s msgs) := by
  intro s msgs
  induction msgs generalizing s with
  | nil => simp [runLoop, serveTrace, threadState]
  | cons i rest ih => simp [runLoop, serveTrace, threadState, ih]

/-- Helper: every `ranRun` event of the serve blocks runs at the saved base
offset. -/
lemma serveTrace_ranRun_offset {S I O E : Type} (p : PersistentTask S I O E)
    (offset : Nat) : ∀ (s : S) (msgs : List I) (o : Nat) (i : I),
      PEvent.ranRun o i ∈ serveTrace p offset s msgs → o = offset := by
  intro s msgs
  induction msgs generalizing s with
  | nil =>
      intro o i h
      simp [serveTrace] at h
  | cons j rest ih =>
      intro o i h
      simp only [serveTrace, List.mem_cons] at h
      rcases h with h | h | h | h
      · simp at h
      · injection h with ho hi
      · simp at h
      · exact ih _ o i h

/-- Helper: the serve blocks contain no `ranInit` event. -/
lemma serveTrace_no_ranInit {S I O E : Type} (p : PersistentTask S I O E)
    (offset : Nat) : ∀ (s : S) (msgs : List I),
      (serveTrace p offset s msgs).countP isRanInit = 0 := by
  intro s msgs
  induction msgs generalizing s with
  | nil => simp [serveTrace]
  | cons i rest ih => simp [serveTrace, List.countP_cons, isRanInit, ih]

/-- C2: when `init` succeeds, the loop serves every delivered message in
order — reconstructing the frame at the base offset saved when the loop
started (every `ranRun` event runs at that same offset, discarding the prior
iteration's root growth), running the user `run` with the retained state and
the message's input, and sending the result on that message's one-shot
channel — and when the channel closes, the user `exit` runs with the final
threaded state and the loop terminates. -/
theorem persistent_loop_runs_and_exits {S I O E : Type}
    (p : PersistentTask S I O E) (base : Nat) (msgs : List I) (s0 : S)
    (sz : Nat) (h : p.init base = .ok (s0, sz)) :
    (PendingTask.call p base msgs).trace =
      PEvent.ranInit :: serveTrace p sz s0 msgs ++
        [PEvent.channelClosed, PEvent.ranExit sz] ∧
    (PendingTask.call p base msgs).finalState =
      some (p.exit sz (threadState p sz s0 msgs)) ∧
    (∀ o i, PEvent.ranRun o i ∈ (PendingTask.call p base msgs).trace →
      o = sz) := by
  have htr : (PendingTask.call p base msgs).trace =
      PEvent.ranInit :: serveTrace p sz s0 msgs ++
        [PEvent.channelClosed, PEvent.ranExit sz] := by
    unfold PendingTask.call
    rw [h]
    simp [runLoop_eq]
  have hfs : (PendingTask.call p base msgs).finalState =
      some (p.exit sz (threadState p sz s0 msgs)) := by
    unfold PendingTask.call
    rw [h]
    simp [runLoop_eq]
  refine ⟨htr, hfs, ?_⟩
  intro o i hmem
  rw [htr] at hmem
  simp only [List.mem_cons, List.mem_append] at hmem
  rcases hmem with (h1 | h1) | h1 | h1
  · simp at h1
  · exact serveTrace_ranRun_offset p sz s0 msgs o i h1
  · simp at h1
  · simp at h1

/-- A persistent task used as a witness: `init` succeeds with state `0`
leaving one root, `run` adds the input to the state. -/
def pGoodW : PersistentTask Nat Nat Nat Nat :=
  { channelCapacity := 4
    init := fun base => .ok (0, base + 1)
    run := fun off s i => (.ok (s + i), s + i, off + 1)
    exit := fun _ s => s }

/-- Witness for C2 at a concrete task and two delivered messages. -/
theorem persistent_loop_runs_and_exits_witness :
    (PendingTask.call pGoodW 0 [10, 20]).trace =
      PEvent.ranInit :: serveTrace pGoodW 1 0 [10, 20] ++
        [PEvent.channelClosed, PEvent.ranExit 1] ∧
    (PendingTask.call pGoodW 0 [10, 20]).finalState =
      some (pGoodW.exit 1 (threadState pGoodW 1 0 [10, 20])) := by
  have h := persistent_loop_runs_and_exits pGoodW 0 [10, 20] 0 1 rfl
  exact ⟨h.1, h.2.1⟩

/-- C3: for every spawned persistent task instance, `init` runs exactly once
regardless of how many calls are later submitted; on success `Ok` (the
handle) is sent to the requester on the one-shot channel; on failure the
error is reported on that same channel and the Running state is never
entered — the whole trace is just the `init` call, so neither `run` nor
`exit` is ever invoked. -/
theorem persistent_init_once_and_publication {S I O E : Type}
    (p : PersistentTask S I O E) (base : Nat) (msgs : List I) :
    (PendingTask.call p base msgs).trace.countP isRanInit = 1 ∧
    (∀ e, p.init base = .error e →
      (PendingTask.call p base msgs).handleSent = .error e ∧
      (PendingTask.call p base msgs).trace = [PEvent.ranInit]) ∧
    (∀ s0 sz, p.init base = .ok (s0, sz) →
      (PendingTask.call p base msgs).handleSent = .ok ()) := by
  refine ⟨?_, ?_, ?_⟩
  · rcases hinit : p.init base with e | ⟨s0, sz⟩
    · simp [PendingTask.call, hinit, List.countP_cons, isRanInit]
    · simp [PendingTask.call, hinit, runLoop_eq, List.countP_append,
        List.countP_cons, isRanInit, serveTrace_no_ranInit]
  · intro e he
    constructor <;> simp [PendingTask.call, he]
  · intro s0 sz hs
    simp [PendingTask.call, hs]

/-- A persistent task whose `init` fails with error `7`. -/
def pBadW : PersistentTask Nat Nat Nat Nat :=
  { channelCapacity := 1
    init := fun _ => .error 7
    run := fun off s _ => (.ok 0, s, off)
    exit := fun _ s => s }

/-- Witness for C3: the failing instance reports error `7` and never enters
Running even with three submitted calls; the succeeding instance publishes
the handle. -/
theorem persistent_init_once_and_publication_witness :
    (PendingTask.call pBadW 0 [1, 2, 3]).trace.countP isRanInit = 1 ∧
    (PendingTask.call pBadW 0 [1, 2, 3]).handleSent = .error 7 ∧
    (PendingTask.call pBadW 0 [1, 2, 3]).trace = [PEvent.ranInit] ∧
    (PendingTask.call pGoodW 0 [1, 2, 3]).handleSent = .ok () := by
  have hb := persistent_init_once_and_publication pBadW 0 [1, 2, 3]
  have hg := persistent_init_once_and_publication pGoodW 0 [1, 2, 3]
  exact ⟨hb.1, (hb.2.1 7 rfl).1, (hb.2.1 7 rfl).2, hg.2.2 0 1 rfl⟩

/-- Helper: there is one response per message. -/
lemma responsesOf_length {S I O E : Type} (p : PersistentTask S I O E)
    (offset : Nat) : ∀ (s : S) (msgs : List I),
      (responsesOf p offset s msgs).length = msgs.length := by
  intro s msgs
  induction msgs generalizing s with
  | nil => simp [responsesOf]
  | cons i rest ih => simp [responsesOf, ih]

/-- Helper: the serve blocks pair each message with its response, in message
order. -/
lemma serveTrace_eq_blocks {S I O E : Type} (p : PersistentTask S I O E)
    (offset : Nat) : ∀ (s : S) (msgs : List I),
      serveTrace p offset s msgs =
        blocks offset (msgs.zip (responsesOf p offset s msgs)) := by
  intro s msgs
  induction msgs generalizing s with
  | nil => simp [serveTrace, responsesOf, blocks]
  | cons i rest ih =>
      simp [serveTrace, responsesOf, blocks, List.zip_cons_cons, ih, List.zip]

/-- C8: a persistent task instance serves requests in exactly channel-delivery
order and never serves two concurrently: its trace decomposes into strictly
sequential per-request blocks — each request is received, run at the saved
offset, and answered before the next request is taken — with one response per
request. -/
theorem persistent_fifo_in_delivery_order {S I O E : Type}
    (p : PersistentTask S I O E) (base : Nat) (msgs : List I) (s0 : S)
    (sz : Nat) (h : p.init base = .ok (s0, sz)) :
    ∃ rs : List (Except E O), rs.length = msgs.length ∧
      (PendingTask.call p base msgs).trace =
        PEvent.ranInit :: blocks sz (msgs.zip rs) ++
          [PEvent.channelClosed, PEvent.ranExit sz] := by
  refine ⟨responsesOf p sz s0 msgs, responsesOf_length p sz s0 msgs, ?_⟩
  unfold PendingTask.call
  rw [h]
  simp [runLoop_eq, serveTrace_eq_blocks]

/-- Witness for C8 at a concrete task and two delivered messages. -/
theorem persistent_fifo_in_delivery_order_witness :
    ∃ rs : List (Except Nat Nat), rs.length = 2 ∧
      (PendingTask.call pGoodW 0 [10, 20]).trace =
        PEvent.ranInit :: blocks 1 ([10, 20].zip rs) ++
          [PEvent.channelClosed, PEvent.ranExit 1] :=
  persistent_fifo_in_delivery_order pGoodW 0 [10, 20] 0 1 rfl

/-! ## Theorems about module lookups and the include task -/

/-- Helper: a successful `Module::global` returns exactly the non-null
binding that `jl_get_global` produced. -/
lemma global_ok_iff (env : GlobalEnv) (m n : String) (v : JlValue) :
    Module.global env m n = .ok v ↔ env.getGlobal m n = some v := by
  unfold Module.global
  rcases hg : env.getGlobal m n with _ | w <;> simp

/-- Helper: a successful `Module::submodule` returns the non-null binding. -/
lemma submodule_ok (env : GlobalEnv) (m n : String) (v : JlValue)
    (hv : Module.submodule env m n = .ok v) : env.getGlobal m n = some v := by
  unfold Module.submodule at hv
  split at hv
  · simp at hv
  · rename_i w hg
    split at hv
    · simp only [Except.ok.injEq] at hv
      rw [hg, hv]
    · simp at hv

/-- Helper: a successful `Module::function` returns the non-null binding. -/
lemma function_ok (env : GlobalEnv) (m n : String) (v : JlValue)
    (hv : Module.function env m n = .ok v) : env.getGlobal m n = some v := by
  unfold Module.function at hv
  split at hv
  · simp at hv
  · rename_i w hg
    split at hv
    · simp only [Except.ok.injEq] at hv
      subst hv
      exact (global_ok_iff env m n w).1 hg
    · simp at hv

/-- C9: module lookups are total over absent or ill-typed bindings — a
missing binding yields `GlobalNotFound` from both `Module::global` and
`Module::submodule`, a binding that is not a module yields `NotAModule` from
`Module::submodule`, a binding that is not a subtype of `Function` yields
`NotAFunction` from `Module::function`; every successful result is the
non-null binding returned by `jl_get_global`. -/
theorem module_lookup_total (env : GlobalEnv) (m n : String) :
    (env.getGlobal m n = none →
      Module.global env m n = .error (.globalNotFound n m) ∧
      Module.submodule env m n = .error (.globalNotFound n m)) ∧
    (∀ v, env.getGlobal m n = some v → env.isModule v = false →
      Module.submodule env m n = .error (.notAModule n (env.datatypeName v))) ∧
    (∀ v, env.getGlobal m n = some v → env.isFunction v = false →
      Module.function env m n =
        .error (.notAFunction n (env.datatypeName v))) ∧
    (∀ v, Module.global env m n = .ok v → env.getGlobal m n = some v) ∧
    (∀ v, Module.submodule env m n = .ok v → env.getGlobal m n = some v) ∧
    (∀ v, Module.function env m n = .ok v → env.getGlobal m n = some v) := by
  refine ⟨?_, ?_, ?_, ?_, ?_, ?_⟩
  · intro h0
    constructor <;> simp [Module.global, Module.submodule, h0]
  · intro v hv hm
    simp [Module.submodule, hv, hm]
  · intro v hv hf
    simp [Module.function, Module.global, hv, hf]
  · intro v hv
    exact (global_ok_iff env m n v).1 hv
  · intro v hv
    exact submodule_ok env m n v hv
  · intro v hv
    exact function_ok env m n v hv

/-- A concrete binding environment: `Main.Sub` is a module (value `1`),
`Main.f` a function (value `2`), `Main.x` an `Int64` (value `3`). -/
def envW : GlobalEnv :=
  { getGlobal := fun m n =>
      if m == "Main" && n == "Sub" then some 1
      else if m == "Main" && n == "f" then some 2
      else if m == "Main" && n == "x" then some 3
      else none
    isModule := fun v => v == 1
    isFunction := fun v => v == 2
    datatypeName := fun v => if v == 1 then "Module" else "Int64" }

/-- Witness for C9 at concrete bindings: a missing name, a non-module
binding, a non-function binding, and a successful lookup. -/
theorem module_lookup_total_witness :
    Module.global envW "Main" "missing" =
      .error (.globalNotFound "missing" "Main") ∧
    Module.submodule envW "Main" "x" = .error (.notAModule "x" "Int64") ∧
    Module.function envW "Main" "x" = .error (.notAFunction "x" "Int64") ∧
    envW.getGlobal "Main" "f" = some 2 := by
  have hmiss := module_lookup_total envW "Main" "missing"
  have hx := module_lookup_total envW "Main" "x"
  have hf := module_lookup_total envW "Main" "f"
  refine ⟨(hmiss.1 rfl).1, ?_, ?_, ?_⟩
  · have := hx.2.1 3 rfl rfl
    simpa [envW] using this
  · have := hx.2.2.1 3 rfl rfl
    simpa [envW] using this
  · exact hf.2.2.2.2.2 2 rfl

/-- C10: a source-include task whose path has no UTF-8 representation
performs no engine call at all and reports `Ok(())` to its sender. -/
theorem include_non_utf8_skips (eng : IncludeEngine) (path : PathBuf)
    (h : path.toStr = none) :
    IncludeTask.call eng path = { sent := .ok (), engineCalls := [] } := by
  simp [IncludeTask.call, IncludeTask.call_inner, h]

/-- An engine whose `include` always succeeds. -/
def engIncW : IncludeEngine := ⟨fun _ => .ok ()⟩

/-- A path with no UTF-8 representation. -/
def badPathW : PathBuf := ⟨none⟩

/-- Witness for C10 at a concrete non-UTF-8 path. -/
theorem include_non_utf8_skips_witness :
    IncludeTask.call engIncW badPathW = { sent := .ok (), engineCalls := [] } :=
  include_non_utf8_skips engIncW badPathW rfl

end Jlrs
